import Mathlib

/-!
Verification development for the execution-graph engine of the
S16 agent repository: the plan-graph data model, the readiness and
scheduling logic of the DAG executor (`agentLoop/flow.py`), the step
runner with its self-continuation protocol, and the debug/replay tool
(`agentLoop/graph_debugger.py`).

Python JSON-like values are embedded as `Val`, dictionaries as ordered
association lists (`Obj`).  The context-manager operations
(`get_ready_steps`, `mark_running`, `mark_done`, `mark_failed`,
`get_inputs`, `all_done`) live in `agentLoop/contextManager.py`, which is
not part of the source files here; they are modelled from the spec, as
marked on each definition.  Everything else is translated directly from
the source files.
-/

namespace S16

/-- JSON-like Python value: None, bool, string, number, list, dict. -/
inductive Val where
  | null : Val
  | bool (b : Bool) : Val
  | str (s : String) : Val
  | nat (n : Nat) : Val
  | list (xs : List Val) : Val
  | obj (fields : List (String × Val)) : Val

/-- A Python dict embedded as an ordered association list. -/
abbrev Obj := List (String × Val)

/-- Python truthiness: None, False, "", 0, [], {} are falsy. -/
def truthy : Val → Bool
  | Val.null => false
  | Val.bool b => b
  | Val.str s => !(s == "")
  | Val.nat n => !(n == 0)
  | Val.list xs => !xs.isEmpty
  | Val.obj fields => !fields.isEmpty

/-- Truthiness of `dict.get` results (`None` for a missing key). -/
def truthyO : Option Val → Bool
  | none => false
  | some v => truthy v

/-- `dict.get(k)`: first binding of the key, if any. -/
def getField (o : Obj) (k : String) : Option Val :=
  (o.find? (fun p => p.1 == k)).map (fun p => p.2)

/-- `dict.get(k, d)`: lookup with a default. -/
def getFieldD (o : Obj) (k : String) (d : Val) : Val :=
  (getField o k).getD d

/-- Whether a dict carries a key. -/
def containsKey (o : Obj) (k : String) : Bool :=
  o.any (fun p => p.1 == k)

/-- The keys of a dict, in order. -/
def objKeys (o : Obj) : List String :=
  o.map Prod.fst

/-- `d[k] = v`: replace the value at an existing key in place, else append. -/
def setField : Obj → String → Val → Obj
  | [], k, v => [(k, v)]
  | p :: ps, k, v => if p.1 == k then (k, v) :: ps else p :: setField ps k v

/-- Python dict merge `{**a, **b}`: a's key order with b's overrides,
then b's new keys. -/
def mergeObj (a b : Obj) : Obj :=
  a.map (fun p => match getField b p.1 with
    | some v => (p.1, v)
    | none => p) ++
  b.filter (fun p => !(a.any (fun q => q.1 == p.1)))

/-- Node status, per the data model of the spec. -/
inductive Status where
  | pending : Status
  | running : Status
  | completed : Status
  | failed : Status
deriving DecidableEq, Repr

/-- A step node of the plan graph. -/
structure Node where
  agent : String
  description : String
  agent_prompt : Option Val
  reads : List String
  writes : List String
  status : Status
  output : Option Obj
  error : Option String
  iterations : Option (List (Option (Nat × Obj)))
  call_self_used : Bool
  final_iteration_output : Option Obj

/-- The plan graph plus its graph-level attributes: node arena keyed by
step id, directed edge list, and the shared namespace with session
metadata. -/
structure Ctx where
  nodes : List (String × Node)
  edges : List (String × String)
  globals_schema : Obj
  original_query : Val
  session_id : Val
  created_at : Val
  file_manifest : Val

/-- Lookup of a node by id in the node arena (first binding wins, as in
a dict). -/
def findAssoc : List (String × Node) → String → Option Node
  | [], _ => none
  | p :: ps, k => if p.1 == k then some p.2 else findAssoc ps k

/-- Pointwise update of the node stored at one id. -/
def updAssoc (l : List (String × Node)) (k : String) (f : Node → Node) :
    List (String × Node) :=
  l.map (fun p => if p.1 == k then (p.1, f p.2) else p)

/-- Node lookup on a context. -/
def getNode (c : Ctx) (k : String) : Option Node :=
  findAssoc c.nodes k

/-- Update one node of a context. -/
def updateNode (c : Ctx) (k : String) (f : Node → Node) : Ctx :=
  { c with nodes := updAssoc c.nodes k f }

/-- Status of a node, if present. -/
def getStatus (c : Ctx) (k : String) : Option Status :=
  (getNode c k).map Node.status

/-- Error text recorded on a node, if the node is present. -/
def getError (c : Ctx) (k : String) : Option (Option String) :=
  (getNode c k).map Node.error

/-- Modelled from the spec: `get_ready_steps()` of the Execution Context
(`agentLoop/contextManager.py`, not among the source files) returns the
ordered set of step ids where status = pending and every direct
predecessor (excluding ROOT) has status = completed; the ROOT sentinel is
excluded from listing. -/
def get_ready_steps (c : Ctx) : List String :=
  (c.nodes.filter (fun p =>
    !(p.1 == "ROOT") && p.2.status == Status.pending &&
    c.edges.all (fun e =>
      !(e.2 == p.1) || e.1 == "ROOT" ||
      getStatus c e.1 == some Status.completed))).map Prod.fst

/-- Modelled from the spec: `mark_running(step_id)` of the Execution
Context sets the node's status to running. -/
def mark_running (c : Ctx) (k : String) : Ctx :=
  updateNode c k (fun n => { n with status := Status.running })

/-- Modelled from the spec: `mark_done(step_id, output)` of the Execution
Context sets status = completed, stores the output, and merges every key
declared in the step's `writes` list into `globals_schema` using the
corresponding sub-fields of `output`; a declared write missing from the
output is a soft error and is simply skipped. -/
def mark_done (c : Ctx) (k : String) (out : Obj) : Ctx :=
  let c1 := updateNode c k
    (fun n => { n with status := Status.completed, output := some out })
  let ws := ((getNode c k).map Node.writes).getD []
  { c1 with globals_schema :=
      ws.foldl (fun g w => match getField out w with
        | some v => setField g w v
        | none => g) c1.globals_schema }

/-- Modelled from the spec: `mark_failed(step_id, error)` of the
Execution Context sets status = failed and stores the error message; it
does not cascade to downstream steps. -/
def mark_failed (c : Ctx) (k : String) (e : String) : Ctx :=
  updateNode c k (fun n => { n with status := Status.failed, error := some e })

/-- Modelled from the spec: `get_inputs(reads)` of the Execution Context
returns the mapping key to value for each declared read found in
`globals_schema`; missing keys are simply omitted. -/
def get_inputs (c : Ctx) (reads : List String) : Obj :=
  reads.foldr (fun k acc => match getField c.globals_schema k with
    | some v => (k, v) :: acc
    | none => acc) []

/-- Modelled from the spec: `all_done()` of the Execution Context is true
iff every non-ROOT node has status completed or failed. -/
def all_done (c : Ctx) : Bool :=
  c.nodes.all (fun p =>
    p.1 == "ROOT" || p.2.status == Status.completed ||
    p.2.status == Status.failed)

/-- `flow.py` `_execute_dag`: the failure scan run when no step is ready
(`any(nodes[n].status == failed for n in nodes)`). -/
def has_failures (c : Ctx) : Bool :=
  c.nodes.any (fun p => p.2.status == Status.failed)

/-- The result of one capability invocation, per the external interface
`invoke(...) -> (success, output?, error?)`. -/
inductive AgentResult where
  | ok (output : Obj) : AgentResult
  | err (error : String) : AgentResult

/-- `flow.py` `build_agent_input` (nested helper of `_execute_step`):
the effective instruction is `instruction or
step_data.get("agent_prompt", step_data["description"])`. -/
def effectivePrompt (instruction : Val) (n : Node) : Val :=
  if truthy instruction then instruction
  else n.agent_prompt.getD (Val.str n.description)

/-- `flow.py` `build_agent_input`: the capability invocation payload.
FormatterAgent additionally receives the entire shared namespace, the
original query and the session metadata; `previous_output` and
`iteration_context` are spliced in only when truthy
(`**(dict if value else empty)`). -/
def build_agent_input (agent_type : String) (step_id : String) (n : Node)
    (c : Ctx) (inputs : Obj) (instruction : Val) (previous_output : Val)
    (iteration_context : Val) : Obj :=
  let base : Obj :=
    [("step_id", Val.str step_id),
     ("agent_prompt", effectivePrompt instruction n),
     ("reads", Val.list (n.reads.map Val.str)),
     ("writes", Val.list (n.writes.map Val.str)),
     ("inputs", Val.obj inputs)]
  let broad : Obj :=
    [("all_globals_schema", Val.obj c.globals_schema),
     ("original_query", c.original_query),
     ("session_context", Val.obj
       [("session_id", c.session_id),
        ("created_at", c.created_at),
        ("file_manifest", c.file_manifest)])]
  let opt : Obj :=
    (if truthy previous_output then [("previous_output", previous_output)]
     else []) ++
    (if truthy iteration_context then
      [("iteration_context", iteration_context)] else [])
  if agent_type == "FormatterAgent" then base ++ broad ++ opt
  else base ++ opt

/-- `flow.py` `_execute_step`, second-turn payload: the code-execution
phase (`_has_executable_code` and `_auto_execute_code` live in the
context manager, which is not among the source files; modelled from the
spec as an opaque collaborator `codeExec` whose successful result is
merged into the inputs for turn two), then `build_agent_input` with the
follow-up instruction, the first output as `previous_output`, and the
`iteration_context` carried from the first output. -/
def execute_step_second_input (c : Ctx) (step_id : String) (n : Node)
    (inputs : Obj) (output : Obj) (codeExec : Obj → Option Obj) : Obj :=
  build_agent_input n.agent step_id n c
    (match codeExec output with
     | some d => mergeObj inputs d
     | none => inputs)
    (getFieldD output "next_instruction" (Val.str "Continue the task"))
    (Val.obj output)
    (getFieldD output "iteration_context" (Val.obj []))

/-- `flow.py` `_execute_step`, call_self branch: run the second turn,
record both iterations on the node (the failed second attempt is stored
as Python `None`), set `call_self_used` and `final_iteration_output`,
and return the second result when it succeeded, else the first. -/
def execute_step_callself (c : Ctx) (step_id : String) (n : Node)
    (inputs : Obj) (output : Obj) (codeExec : Obj → Option Obj)
    (run2 : Obj → AgentResult) : AgentResult × Ctx :=
  match run2 (execute_step_second_input c step_id n inputs output codeExec) with
  | AgentResult.ok o2 =>
      (AgentResult.ok o2,
       updateNode c step_id (fun m =>
         { m with iterations := some [some (1, output), some (2, o2)],
                  call_self_used := true,
                  final_iteration_output := some o2 }))
  | AgentResult.err _ =>
      (AgentResult.ok output,
       updateNode c step_id (fun m =>
         { m with iterations := some [some (1, output), none],
                  call_self_used := true,
                  final_iteration_output := some output }))

/-- `flow.py` `_execute_step` after the node lookup: first invocation at
the first-turn payload; a failure propagates unchanged; on success the
call_self flag selects the two-turn branch. -/
def execute_step_body (c : Ctx) (step_id : String) (n : Node)
    (run1 : Obj → AgentResult) (codeExec : Obj → Option Obj)
    (run2 : Obj → AgentResult) : AgentResult × Ctx :=
  match run1 (build_agent_input n.agent step_id n c (get_inputs c n.reads)
      Val.null Val.null Val.null) with
  | AgentResult.err e => (AgentResult.err e, c)
  | AgentResult.ok output =>
      if truthyO (getField output "call_self") then
        execute_step_callself c step_id n (get_inputs c n.reads) output
          codeExec run2
      else (AgentResult.ok output, c)

/-- `flow.py` `_execute_step`: execute one step id; a missing node is a
raised KeyError, modelled as `Except.error`. -/
def execute_step (c : Ctx) (step_id : String) (run1 : Obj → AgentResult)
    (codeExec : Obj → Option Obj) (run2 : Obj → AgentResult) :
    Except String (AgentResult × Ctx) :=
  match getNode c step_id with
  | none => Except.error ("KeyError: " ++ step_id)
  | some n => Except.ok (execute_step_body c step_id n run1 codeExec run2)

/-- Outcome of one dispatched step as observed by the scheduler loop
through `asyncio.gather(..., return_exceptions=True)`: a raised
exception, a structured success, or a structured failure. -/
inductive StepOutcome where
  | exn (msg : String) : StepOutcome
  | ok (output : Obj) : StepOutcome
  | fail (error : String) : StepOutcome

/-- The terminal status the scheduler's result processing assigns for an
outcome. -/
def terminalOf : StepOutcome → Status
  | StepOutcome.exn _ => Status.failed
  | StepOutcome.ok _ => Status.completed
  | StepOutcome.fail _ => Status.failed

/-- `flow.py` `_execute_dag`, result processing for one step of a batch:
an exception becomes `mark_failed` with the exception text, a success
becomes `mark_done`, a structured failure becomes `mark_failed`. -/
def applyOutcome (c : Ctx) (k : String) : StepOutcome → Ctx
  | StepOutcome.exn msg => mark_failed c k msg
  | StepOutcome.ok out => mark_done c k out
  | StepOutcome.fail e => mark_failed c k e

/-- `flow.py` `_execute_dag`: process the whole batch's results in
order. -/
def applyResults (c : Ctx) (batch : List String)
    (o : String → StepOutcome) : Ctx :=
  batch.foldl (fun acc k => applyOutcome acc k (o k)) c

/-- `flow.py` `_execute_dag`: mark every ready step running before
dispatch. -/
def markAllRunning (c : Ctx) (batch : List String) : Ctx :=
  batch.foldl (fun acc k => mark_running acc k) c

/-- Observable actions of the scheduler loop: a readiness query (with
the state at that point and its answer), a concurrent dispatch of a
batch, and an idle-wait retry. -/
inductive Event where
  | query (c : Ctx) (ready : List String) : Event
  | dispatch (batch : List String) : Event
  | idle : Event

/-- `flow.py` `_execute_dag` main loop: while not `all_done` and the
iteration budget remains, query ready steps; if none and a failure
exists, break; if none and no failure, idle-wait and retry; otherwise
mark the batch running, dispatch it, and apply each step's own
outcome. -/
def runLoop (o : String → StepOutcome) : Nat → Ctx → Ctx × List Event
  | 0, c => (c, [])
  | Nat.succ fuel, c =>
    if all_done c then (c, [])
    else
      let ready := get_ready_steps c
      if ready.isEmpty then
        if has_failures c then (c, [Event.query c ready])
        else
          let r := runLoop o fuel c
          (r.1, Event.query c ready :: Event.idle :: r.2)
      else
        let c2 := applyResults (markAllRunning c ready) ready o
        let r := runLoop o fuel c2
        (r.1, Event.query c ready :: Event.dispatch ready :: r.2)

/-- `flow.py` `_execute_dag`: the loop with its fixed budget
`max_iterations = 20`. -/
def execute_dag (o : String → StepOutcome) (c : Ctx) : Ctx × List Event :=
  runLoop o 20 c

/-- Number of readiness queries (loop iterations that ran a body) in a
trace. -/
def countQueries (tr : List Event) : Nat :=
  tr.countP (fun e => match e with
    | Event.query _ _ => true
    | _ => false)

/-- Whether a trace contains a dispatch event. -/
def hasDispatch (tr : List Event) : Bool :=
  tr.any (fun e => match e with
    | Event.dispatch _ => true
    | _ => false)

/-- The trace of a run that stays blocked with no failures: one
readiness query and one idle wait per remaining budget unit. -/
def idleTrace (c : Ctx) : Nat → List Event
  | 0 => []
  | Nat.succ n => Event.query c [] :: Event.idle :: idleTrace c n

/-- `flow.py` `_execute_dag`, the full handling of one step of a batch:
mark it running, run `_execute_step`, and apply its own result (a raised
exception is caught by the gather and marked failed with its text). -/
def scheduler_step (c : Ctx) (step_id : String) (run1 : Obj → AgentResult)
    (codeExec : Obj → Option Obj) (run2 : Obj → AgentResult) : Ctx :=
  let c0 := mark_running c step_id
  match execute_step c0 step_id run1 codeExec run2 with
  | Except.error e => mark_failed c0 step_id e
  | Except.ok (AgentResult.ok out, c1) => mark_done c1 step_id out
  | Except.ok (AgentResult.err e, c1) => mark_failed c1 step_id e

/-- `graph_debugger.py` `GraphDebugger.__init__`: `hasMCP` is the
module-level `HAS_MCP` flag (whether the MCP modules imported), and
`read_only = not HAS_MCP`; `hasRunner` records whether a `multi_mcp`
backend was passed, since `agent_runner = AgentRunner(multi_mcp) if
multi_mcp else None`. -/
structure GraphDebugger where
  hasMCP : Bool
  hasRunner : Bool
  context : Option Ctx

/-- What a completed `replay_node` call leaves behind: the (possibly
updated) context, the returned value, whether the capability was
invoked, and the iterations record written to the `memory/temp.json`
debug file by the call_self branch (which is the only place the second
turn is recorded). -/
structure ReplayOutcome where
  context : Option Ctx
  ret : Obj
  invoked : Bool
  tempIterations : Option (List (Option (Nat × Obj)))

/-- `graph_debugger.py` `replay_node`, second-turn payload: a dict
literal that always carries `previous_output` and `iteration_context`
and never the FormatterAgent broad-context fields. -/
def replay_second_input (node_id : String) (n : Node) (inputs : Obj)
    (out : Obj) : Obj :=
  [("step_id", Val.str node_id),
   ("agent_prompt", getFieldD out "next_instruction"
      (Val.str "Continue the task")),
   ("reads", Val.list (n.reads.map Val.str)),
   ("writes", Val.list (n.writes.map Val.str)),
   ("inputs", Val.obj inputs),
   ("previous_output", Val.obj out),
   ("iteration_context", getFieldD out "iteration_context" (Val.obj []))]

/-- `graph_debugger.py` `GraphDebugger.replay_node`: in read-only mode
(`not HAS_MCP`) return an empty dict at once; likewise for a missing context or
node.  Otherwise reset the node's status and output, build the first
payload (the dict literals of lines 254–276 coincide with `flow.py`'s
`build_agent_input` at absent optional arguments), dereference the agent
runner (an `AttributeError` when no backend was attached), invoke once,
and on success `mark_done` the node with the first output; a truthy
`call_self` triggers a second invocation whose two-iteration record goes
only to the `temp.json` debug file.  The function returns the first
output on success and an empty dict on failure (the reset node is left
pending). -/
def replay_reset (c : Ctx) (node_id : String) : Ctx :=
  updateNode c node_id (fun m =>
    { m with status := Status.pending, output := none })

/-- `graph_debugger.py` `replay_node`, call_self branch: the ordered
two-iteration record computed from the second invocation (written only
to the debug file). -/
def replay_iterations (n : Node) (node_id : String) (inputs : Obj)
    (out : Obj) (run2 : Obj → AgentResult) : List (Option (Nat × Obj)) :=
  match run2 (replay_second_input node_id n inputs out) with
  | AgentResult.ok o2 => [some (1, out), some (2, o2)]
  | AgentResult.err _ => [some (1, out), none]

/-- `graph_debugger.py` `replay_node`, success branch: line 287 calls
`self.context.mark_done(node_id, result["output"])` WITHOUT awaiting
it.  `mark_done` is a coroutine function (`flow.py` line 144 awaits
it), so this call only creates a coroutine object that is discarded and
never executed: the node stays exactly as the reset left it (pending,
output cleared) and no globals merge happens.  A truthy `call_self`
additionally runs the second turn, whose record goes only to
`temp.json`; the first output is returned either way. -/
def replay_success (c : Ctx) (node_id : String) (n : Node) (out : Obj)
    (run2 : Obj → AgentResult) : Except String ReplayOutcome :=
  if truthyO (getField out "call_self") then
    Except.ok ⟨some (replay_reset c node_id), out, true,
      some (replay_iterations n node_id (get_inputs c n.reads) out run2)⟩
  else
    Except.ok ⟨some (replay_reset c node_id), out, true, none⟩

/-- `graph_debugger.py` `GraphDebugger.replay_node`: in read-only mode
(`not HAS_MCP`) return an empty dict at once; likewise for a missing
context or node.  Otherwise reset the node's status and output, build
the first payload (the dict literals of lines 254–276 coincide with
`flow.py`'s `build_agent_input` at absent optional arguments),
dereference the agent runner (an `AttributeError` when no backend was
attached, modelled as `Except.error`; a raised error discards the model
state), invoke once, and on success proceed per `replay_success`; on a
failed invocation return an empty dict with the node left reset. -/
def replay_node (dbg : GraphDebugger) (node_id : String)
    (run1 run2 : Obj → AgentResult) : Except String ReplayOutcome :=
  if !dbg.hasMCP then Except.ok ⟨dbg.context, [], false, none⟩
  else match dbg.context with
  | none => Except.ok ⟨none, [], false, none⟩
  | some c =>
    match findAssoc c.nodes node_id with
    | none => Except.ok ⟨some c, [], false, none⟩
    | some n =>
      if !dbg.hasRunner then
        Except.error "AttributeError: NoneType object has no attribute run_agent"
      else match run1 (build_agent_input n.agent node_id n c
          (get_inputs c n.reads) Val.null Val.null Val.null) with
      | AgentResult.ok out => replay_success c node_id n out run2
      | AgentResult.err _ =>
          Except.ok ⟨some (replay_reset c node_id), [], true, none⟩

/-- No node of the context currently has status running. -/
def noRunning (c : Ctx) : Prop :=
  ∀ p ∈ c.nodes, p.2.status ≠ Status.running

/-- The node arena has pairwise distinct step ids. -/
def nodupKeys (c : Ctx) : Prop :=
  (c.nodes.map Prod.fst).Nodup

/-- The node transformation the scheduler's result processing performs
for one outcome (the node part of `applyOutcome`). -/
def outcomeF : StepOutcome → Node → Node
  | StepOutcome.exn msg => fun n =>
      { n with status := Status.failed, error := some msg }
  | StepOutcome.ok out => fun n =>
      { n with status := Status.completed, output := some out }
  | StepOutcome.fail e => fun n =>
      { n with status := Status.failed, error := some e }

/-- A fresh node with the given agent, description, reads, writes and
status, and empty bookkeeping. -/
def mkNode (agent description : String) (reads writes : List String)
    (status : Status) : Node :=
  ⟨agent, description, none, reads, writes, status, none, none, none,
   false, none⟩

/-- A context with the given nodes, edges and namespace and fixed
session metadata. -/
def mkCtx (nodes : List (String × Node)) (edges : List (String × String))
    (globals : Obj) : Ctx :=
  ⟨nodes, edges, globals, Val.str "query", Val.str "s1", Val.str "t0",
   Val.list []⟩

/-- The ROOT sentinel node used by the concrete examples. -/
def rootNode : Node := mkNode "" "root" [] [] Status.completed

/-- Example step: no reads, writes "x", pending. -/
def nodeT1 : Node := mkNode "CoderAgent" "write code" [] ["x"] Status.pending

/-- Example step: reads "x", writes "y", pending. -/
def nodeT2 : Node := mkNode "RetrieverAgent" "fetch" ["x"] ["y"] Status.pending

/-- Example graph: ROOT → T1 → T2 with T1 pending. -/
def ctx1 : Ctx :=
  mkCtx [("ROOT", rootNode), ("T1", nodeT1), ("T2", nodeT2)]
    [("ROOT", "T1"), ("T1", "T2")] []

/-- Example graph: ROOT → T1 → T2 with T1 already completed, so T2 is
the ready step and has a completed non-ROOT predecessor. -/
def ctx2 : Ctx :=
  mkCtx [("ROOT", rootNode),
         ("T1", mkNode "CoderAgent" "write code" [] ["x"] Status.completed),
         ("T2", nodeT2)]
    [("ROOT", "T1"), ("T1", "T2")] [("x", Val.nat 5)]

/-- Example graph with the single step T1. -/
def ctxA : Ctx :=
  mkCtx [("ROOT", rootNode), ("T1", nodeT1)] [("ROOT", "T1")] []

/-- A first-turn output requesting self-continuation. -/
def out1 : Obj := [("call_self", Val.bool true), ("x", Val.nat 1)]

/-- A second-turn output. -/
def out2 : Obj := [("x", Val.nat 2)]

/-- A first-turn output requesting self-continuation but carrying no
`iteration_context`. -/
def outNC : Obj := [("call_self", Val.bool true)]

/-- A capability returning `out1`. -/
def runA : Obj → AgentResult := fun _ => AgentResult.ok out1

/-- A capability returning `out2`. -/
def runB : Obj → AgentResult := fun _ => AgentResult.ok out2

/-- A capability that fails. -/
def runFail : Obj → AgentResult := fun _ => AgentResult.err "boom"

/-- No executable code payload: the code-execution phase contributes
nothing. -/
def codeNone : Obj → Option Obj := fun _ => none

/-- Concrete step execution whose second turn fails. -/
def c6res : Except String (AgentResult × Ctx) :=
  execute_step ctxA "T1" runA codeNone runFail

/-- The node T1 after `c6res`. -/
def c6node : Option Node :=
  match c6res with
  | Except.ok (_, c2) => getNode c2 "T1"
  | Except.error _ => none

/-- Example graph with two independent pending steps for a batch. -/
def ctx3 : Ctx :=
  mkCtx [("ROOT", rootNode),
         ("T1", mkNode "CoderAgent" "a" [] [] Status.pending),
         ("T2", mkNode "RetrieverAgent" "b" [] [] Status.pending)]
    [("ROOT", "T1"), ("ROOT", "T2")] []

/-- Batch outcomes: T1's invocation raises, T2 succeeds. -/
def o3 : String → StepOutcome :=
  fun k => if k == "T1" then StepOutcome.exn "crash"
           else StepOutcome.ok [("y", Val.nat 1)]

/-- Example graph with a failed step and a blocked dependent: no step is
ready and a failure exists. -/
def ctx4 : Ctx :=
  mkCtx [("ROOT", rootNode),
         ("T1", mkNode "CoderAgent" "a" [] ["x"] Status.failed),
         ("T2", nodeT2)]
    [("ROOT", "T1"), ("T1", "T2")] []

/-- Example graph with a planner-bug cycle T2 ⇄ T3: no step ever becomes
ready and no failure exists. -/
def ctx5 : Ctx :=
  mkCtx [("ROOT", rootNode),
         ("T2", mkNode "CoderAgent" "a" [] [] Status.pending),
         ("T3", mkNode "RetrieverAgent" "b" [] [] Status.pending)]
    [("T2", "T3"), ("T3", "T2")] []

/-- A debugger with the MCP modules imported and a live backend. -/
def dbg8 : GraphDebugger := ⟨true, true, some ctxA⟩

/-- A debugger with the MCP modules imported but constructed with
`multi_mcp` absent, so no agent runner exists. -/
def dbg9 : GraphDebugger := ⟨true, false, some ctxA⟩

/-- A debugger in read-only mode (MCP modules failed to import). -/
def dbg9ro : GraphDebugger := ⟨false, false, some ctxA⟩

/-- Concrete replay of T1 whose capability requests self-continuation
and whose second turn succeeds with `out2`. -/
def c8_replay : Except String ReplayOutcome :=
  replay_node dbg8 "T1" runA runB

/-- The same step driven by the scheduler loop's per-step handling. -/
def c8_normal : Ctx := scheduler_step ctxA "T1" runA codeNone runB

/-- Node T1 as the replay leaves it. -/
def c8_replayNode : Option Node :=
  match c8_replay with
  | Except.ok ro => ro.context.bind (fun c => getNode c "T1")
  | Except.error _ => none

/-- Node T1 as a normal scheduler-driven execution leaves it. -/
def c8_normalNode : Option Node := getNode c8_normal "T1"

/-- A node as the replay reset leaves it: pending with its output
cleared. -/
def resetNode (n : Node) : Node :=
  { n with status := Status.pending, output := none }

/-- A node with the self-continuation bookkeeping fields set, as the
step runner records them. -/
def withIterations (n : Node) (iters : List (Option (Nat × Obj)))
    (fout : Obj) : Node :=
  { n with iterations := some iters, call_self_used := true,
           final_iteration_output := some fout }

theorem findAssoc_updAssoc_self (l : List (String × Node)) (k : String)
    (f : Node → Node) :
    findAssoc (updAssoc l k f) k = (findAssoc l k).map f := by
  induction l with
  | nil => rfl
  | cons p ps ih =>
    cases h : (p.1 == k) with
    | true => simp [updAssoc, findAssoc, h]
    | false => simpa [updAssoc, findAssoc, h] using ih

theorem findAssoc_updAssoc_ne (l : List (String × Node)) (k j : String)
    (f : Node → Node) (hjk : ¬ j = k) :
    findAssoc (updAssoc l k f) j = findAssoc l j := by
  induction l with
  | nil => rfl
  | cons p ps ih =>
    cases h : (p.1 == k) with
    | true =>
      have hpj : (p.1 == j) = false := by
        rw [beq_iff_eq] at h
        rw [beq_eq_false_iff_ne, h]
        exact fun hh => hjk hh.symm
      simpa [updAssoc, findAssoc, h, hpj] using ih
    | false =>
      cases hj : (p.1 == j) with
      | true => simp [updAssoc, findAssoc, h, hj]
      | false => simpa [updAssoc, findAssoc, h, hj] using ih

theorem keys_updAssoc (l : List (String × Node)) (k : String)
    (f : Node → Node) :
    (updAssoc l k f).map Prod.fst = l.map Prod.fst := by
  induction l with
  | nil => rfl
  | cons p ps ih =>
    by_cases h : (p.1 == k) = true
    · simp only [updAssoc, List.map_cons, if_pos h]
      exact congrArg (List.cons p.1) ih
    · simp only [updAssoc, List.map_cons, if_neg h]
      exact congrArg (List.cons p.1) ih

theorem findAssoc_isSome_keys (l1 l2 : List (String × Node)) (j : String)
    (h : l2.map Prod.fst = l1.map Prod.fst) :
    (findAssoc l2 j).isSome = (findAssoc l1 j).isSome := by
  induction l1 generalizing l2 with
  | nil =>
    cases l2 with
    | nil => rfl
    | cons q qs => simp at h
  | cons p ps ih =>
    cases l2 with
    | nil => simp at h
    | cons q qs =>
      simp only [List.map_cons, List.cons.injEq] at h
      have hq : (q.1 == j) = (p.1 == j) := by rw [h.1]
      cases hk : (p.1 == j) with
      | true => simp [findAssoc, hq, hk]
      | false => simpa [findAssoc, hq, hk] using ih qs h.2

theorem findAssoc_mem (l : List (String × Node)) (k : String) (n : Node)
    (h : findAssoc l k = some n) : (k, n) ∈ l := by
  induction l with
  | nil => simp [findAssoc] at h
  | cons p ps ih =>
    cases hk : (p.1 == k) with
    | true =>
      rw [findAssoc, hk] at h
      simp only [if_true, Option.some.injEq] at h
      rw [beq_iff_eq] at hk
      have : p = (k, n) := by
        cases p
        simp_all
      rw [← this]
      exact List.mem_cons_self p ps
    | false =>
      rw [findAssoc, hk] at h
      simp only [Bool.false_eq_true, if_false] at h
      exact List.mem_cons_of_mem p (ih h)

theorem findAssoc_isSome_of_mem (l : List (String × Node)) (k : String)
    (n : Node) (hm : (k, n) ∈ l) : (findAssoc l k).isSome = true := by
  induction l with
  | nil => simp at hm
  | cons p ps ih =>
    cases hk : (p.1 == k) with
    | true => simp [findAssoc, hk]
    | false =>
      rcases List.mem_cons.mp hm with he | ht
      · rw [← he] at hk
        simp at hk
      · simpa [findAssoc, hk] using ih ht

theorem findAssoc_eq_of_mem (l : List (String × Node)) (k : String)
    (n : Node) (hnd : (l.map Prod.fst).Nodup) (hm : (k, n) ∈ l) :
    findAssoc l k = some n := by
  induction l with
  | nil => simp at hm
  | cons p ps ih =>
    simp only [List.map_cons, List.nodup_cons] at hnd
    rcases List.mem_cons.mp hm with he | ht
    · rw [← he]
      simp [findAssoc]
    · cases hk : (p.1 == k) with
      | true =>
        exfalso
        apply hnd.1
        rw [beq_iff_eq] at hk
        rw [hk]
        exact List.mem_map.mpr ⟨(k, n), ht, rfl⟩
      | false =>
        rw [findAssoc, hk]
        simpa using ih hnd.2 ht

theorem getStatus_eq (c : Ctx) (k : String) :
    getStatus c k = (getNode c k).map Node.status := rfl

theorem getNode_updateNode_self (c : Ctx) (k : String) (f : Node → Node) :
    getNode (updateNode c k f) k = (getNode c k).map f :=
  findAssoc_updAssoc_self c.nodes k f

theorem getNode_updateNode_ne (c : Ctx) (k j : String) (f : Node → Node)
    (h : ¬ j = k) : getNode (updateNode c k f) j = getNode c j :=
  findAssoc_updAssoc_ne c.nodes k j f h

theorem isSome_getNode_updateNode (c : Ctx) (k : String) (f : Node → Node)
    (j : String) :
    (getNode (updateNode c k f) j).isSome = (getNode c j).isSome :=
  findAssoc_isSome_keys c.nodes (updateNode c k f).nodes j
    (keys_updAssoc c.nodes k f)

theorem nodes_applyOutcome (c : Ctx) (k : String) (s : StepOutcome) :
    (applyOutcome c k s).nodes = updAssoc c.nodes k (outcomeF s) := by
  cases s <;> rfl

theorem getNode_applyOutcome_self (c : Ctx) (k : String) (s : StepOutcome) :
    getNode (applyOutcome c k s) k = (getNode c k).map (outcomeF s) := by
  show findAssoc (applyOutcome c k s).nodes k = _
  rw [nodes_applyOutcome]
  exact findAssoc_updAssoc_self c.nodes k _

theorem getNode_applyOutcome_ne (c : Ctx) (k j : String) (s : StepOutcome)
    (h : ¬ j = k) : getNode (applyOutcome c k s) j = getNode c j := by
  show findAssoc (applyOutcome c k s).nodes j = _
  rw [nodes_applyOutcome]
  exact findAssoc_updAssoc_ne c.nodes k j _ h

theorem isSome_getNode_applyOutcome (c : Ctx) (k : String) (s : StepOutcome)
    (j : String) :
    (getNode (applyOutcome c k s) j).isSome = (getNode c j).isSome := by
  show (findAssoc (applyOutcome c k s).nodes j).isSome = _
  rw [nodes_applyOutcome]
  exact findAssoc_isSome_keys c.nodes _ j (keys_updAssoc c.nodes k _)

theorem keys_applyOutcome (c : Ctx) (k : String) (s : StepOutcome) :
    (applyOutcome c k s).nodes.map Prod.fst = c.nodes.map Prod.fst := by
  rw [nodes_applyOutcome]
  exact keys_updAssoc c.nodes k _

theorem applyResults_cons (c : Ctx) (a : String) (bs : List String)
    (o : String → StepOutcome) :
    applyResults c (a :: bs) o = applyResults (applyOutcome c a (o a)) bs o :=
  rfl

theorem markAllRunning_cons (c : Ctx) (a : String) (bs : List String) :
    markAllRunning c (a :: bs) = markAllRunning (mark_running c a) bs := rfl

theorem keys_applyResults (c : Ctx) (batch : List String)
    (o : String → StepOutcome) :
    (applyResults c batch o).nodes.map Prod.fst = c.nodes.map Prod.fst := by
  induction batch generalizing c with
  | nil => rfl
  | cons a bs ih =>
    rw [applyResults_cons, ih (applyOutcome c a (o a))]
    exact keys_applyOutcome c a (o a)

theorem keys_markAllRunning (c : Ctx) (batch : List String) :
    (markAllRunning c batch).nodes.map Prod.fst = c.nodes.map Prod.fst := by
  induction batch generalizing c with
  | nil => rfl
  | cons a bs ih =>
    rw [markAllRunning_cons, ih (mark_running c a)]
    exact keys_updAssoc c.nodes a (fun n => { n with status := Status.running })

theorem isSome_getNode_markAllRunning (c : Ctx) (batch : List String)
    (j : String) :
    (getNode (markAllRunning c batch) j).isSome = (getNode c j).isSome :=
  findAssoc_isSome_keys c.nodes (markAllRunning c batch).nodes j
    (keys_markAllRunning c batch)

theorem getNode_applyResults_not_mem (c : Ctx) (batch : List String)
    (o : String → StepOutcome) (j : String) (hj : j ∉ batch) :
    getNode (applyResults c batch o) j = getNode c j := by
  induction batch generalizing c with
  | nil => rfl
  | cons a bs ih =>
    have hja : ¬ j = a := fun h => hj (h ▸ List.mem_cons_self a bs)
    have hjb : j ∉ bs := fun h => hj (List.mem_cons_of_mem a h)
    rw [applyResults_cons, ih (applyOutcome c a (o a)) hjb]
    exact getNode_applyOutcome_ne c a j (o a) hja

theorem getStatus_applyResults_mem (c : Ctx) (batch : List String)
    (o : String → StepOutcome) (j : String) (hj : j ∈ batch)
    (hp : (getNode c j).isSome = true) :
    getStatus (applyResults c batch o) j = some (terminalOf (o j)) := by
  induction batch generalizing c with
  | nil => simp at hj
  | cons a bs ih =>
    rw [applyResults_cons]
    by_cases hbs : j ∈ bs
    · apply ih (applyOutcome c a (o a)) hbs
      rw [isSome_getNode_applyOutcome]
      exact hp
    · have hja : j = a := (List.mem_cons.mp hj).resolve_right hbs
      subst hja
      rw [getStatus_eq, getNode_applyResults_not_mem _ bs o j hbs,
        getNode_applyOutcome_self]
      rcases Option.isSome_iff_exists.mp hp with ⟨n, hn⟩
      rw [hn]
      cases o j <;> rfl

theorem getNode_applyResults_mem_nodup (c : Ctx) (batch : List String)
    (o : String → StepOutcome) (j : String) (hnd : batch.Nodup)
    (hj : j ∈ batch) :
    getNode (applyResults c batch o) j = getNode (applyOutcome c j (o j)) j := by
  induction batch generalizing c with
  | nil => simp at hj
  | cons a bs ih =>
    rw [List.nodup_cons] at hnd
    rw [applyResults_cons]
    by_cases hbs : j ∈ bs
    · have hja : ¬ j = a := fun h => hnd.1 (h ▸ hbs)
      rw [ih (applyOutcome c a (o a)) hnd.2 hbs,
        getNode_applyOutcome_self, getNode_applyOutcome_self,
        getNode_applyOutcome_ne c a j (o a) hja]
    · have hja : j = a := (List.mem_cons.mp hj).resolve_right hbs
      subst hja
      rw [getNode_applyResults_not_mem _ bs o j hbs]

theorem getNode_markAllRunning_not_mem (c : Ctx) (batch : List String)
    (j : String) (hj : j ∉ batch) :
    getNode (markAllRunning c batch) j = getNode c j := by
  induction batch generalizing c with
  | nil => rfl
  | cons a bs ih =>
    have hja : ¬ j = a := fun h => hj (h ▸ List.mem_cons_self a bs)
    have hjb : j ∉ bs := fun h => hj (List.mem_cons_of_mem a h)
    rw [markAllRunning_cons, ih (mark_running c a) hjb]
    exact getNode_updateNode_ne c a j _ hja

theorem getStatus_markAllRunning_mem (c : Ctx) (batch : List String)
    (j : String) (hj : j ∈ batch) (hp : (getNode c j).isSome = true) :
    getStatus (markAllRunning c batch) j = some Status.running := by
  induction batch generalizing c with
  | nil => simp at hj
  | cons a bs ih =>
    rw [markAllRunning_cons]
    by_cases hbs : j ∈ bs
    · apply ih (mark_running c a) hbs
      exact (isSome_getNode_updateNode c a
        (fun n => { n with status := Status.running }) j).trans hp
    · have hja : j = a := (List.mem_cons.mp hj).resolve_right hbs
      subst hja
      rw [getStatus_eq, getNode_markAllRunning_not_mem _ bs j hbs,
        show getNode (mark_running c j) j =
          (getNode c j).map (fun n => { n with status := Status.running })
          from getNode_updateNode_self c j _]
      rcases Option.isSome_iff_exists.mp hp with ⟨n, hn⟩
      rw [hn]
      rfl

theorem isSome_getNode_of_mem_ready (c : Ctx) (k : String)
    (hk : k ∈ get_ready_steps c) : (getNode c k).isSome = true := by
  rw [get_ready_steps] at hk
  rcases List.mem_map.mp hk with ⟨p, hpmem, hpk⟩
  have hpf := List.mem_of_mem_filter hpmem
  exact findAssoc_isSome_of_mem c.nodes k p.2 (by rw [← hpk]; exact hpf)

theorem getStatus_ne_running_of_noRunning (c : Ctx) (h : noRunning c)
    (k : String) : getStatus c k ≠ some Status.running := by
  intro hs
  rw [getStatus_eq] at hs
  rcases Option.map_eq_some'.mp hs with ⟨n, hn, hrun⟩
  exact h (k, n) (findAssoc_mem c.nodes k n hn) hrun

theorem noRunning_of_getStatus (c : Ctx) (hnd : nodupKeys c)
    (h : ∀ k, getStatus c k ≠ some Status.running) : noRunning c := by
  intro p hp hrun
  apply h p.1
  show (findAssoc c.nodes p.1).map Node.status = some Status.running
  rw [findAssoc_eq_of_mem c.nodes p.1 p.2 hnd hp]
  simp [hrun]

theorem nodupKeys_afterBatch (c : Ctx) (batch : List String)
    (o : String → StepOutcome) (h : nodupKeys c) :
    nodupKeys (applyResults (markAllRunning c batch) batch o) := by
  show ((applyResults (markAllRunning c batch) batch o).nodes.map
    Prod.fst).Nodup
  rw [keys_applyResults, keys_markAllRunning]
  exact h

theorem noRunning_afterBatch (c : Ctx) (o : String → StepOutcome)
    (hnd : nodupKeys c) (hnr : noRunning c) :
    noRunning (applyResults (markAllRunning c (get_ready_steps c))
      (get_ready_steps c) o) := by
  apply noRunning_of_getStatus _ (nodupKeys_afterBatch c _ o hnd)
  intro k
  by_cases hk : k ∈ get_ready_steps c
  · rw [getStatus_applyResults_mem _ _ o k hk]
    · cases o k <;> simp [terminalOf]
    · rw [isSome_getNode_markAllRunning]
      exact isSome_getNode_of_mem_ready c k hk
  · rw [getStatus_eq, getNode_applyResults_not_mem _ _ o k hk,
      getNode_markAllRunning_not_mem _ _ k hk, ← getStatus_eq]
    exact getStatus_ne_running_of_noRunning c hnr k

theorem runLoop_zero (o : String → StepOutcome) (c : Ctx) :
    runLoop o 0 c = (c, []) := rfl

theorem runLoop_succ_done (o : String → StepOutcome) (fuel : Nat) (c : Ctx)
    (h : all_done c = true) : runLoop o (fuel + 1) c = (c, []) := by
  simp [runLoop, h]

theorem runLoop_succ_blocked_fail (o : String → StepOutcome) (fuel : Nat)
    (c : Ctx) (h1 : all_done c = false)
    (h2 : (get_ready_steps c).isEmpty = true) (h3 : has_failures c = true) :
    runLoop o (fuel + 1) c = (c, [Event.query c (get_ready_steps c)]) := by
  simp [runLoop, h1, h2, h3]

theorem runLoop_succ_idle (o : String → StepOutcome) (fuel : Nat) (c : Ctx)
    (h1 : all_done c = false) (h2 : (get_ready_steps c).isEmpty = true)
    (h3 : has_failures c = false) :
    runLoop o (fuel + 1) c =
      ((runLoop o fuel c).1,
       Event.query c (get_ready_steps c) :: Event.idle ::
         (runLoop o fuel c).2) := by
  simp [runLoop, h1, h2, h3]

theorem runLoop_succ_batch (o : String → StepOutcome) (fuel : Nat) (c : Ctx)
    (h1 : all_done c = false) (h2 : (get_ready_steps c).isEmpty = false) :
    runLoop o (fuel + 1) c =
      ((runLoop o fuel (applyResults
          (markAllRunning c (get_ready_steps c)) (get_ready_steps c) o)).1,
       Event.query c (get_ready_steps c) ::
         Event.dispatch (get_ready_steps c) ::
         (runLoop o fuel (applyResults
           (markAllRunning c (get_ready_steps c)) (get_ready_steps c) o)).2) := by
  simp [runLoop, h1, h2]

theorem countQueries_nil : countQueries [] = 0 := rfl

theorem countQueries_query (c : Ctx) (r : List String) (tr : List Event) :
    countQueries (Event.query c r :: tr) = countQueries tr + 1 := by
  simp [countQueries, List.countP_cons]

theorem countQueries_idle (tr : List Event) :
    countQueries (Event.idle :: tr) = countQueries tr := by
  simp [countQueries, List.countP_cons]

theorem countQueries_dispatch (b : List String) (tr : List Event) :
    countQueries (Event.dispatch b :: tr) = countQueries tr := by
  simp [countQueries, List.countP_cons]

theorem countQueries_runLoop_le (o : String → StepOutcome) :
    ∀ (fuel : Nat) (c : Ctx), countQueries (runLoop o fuel c).2 ≤ fuel := by
  intro fuel
  induction fuel with
  | zero =>
    intro c
    rw [runLoop_zero]
    exact Nat.le_refl 0
  | succ fuel ih =>
    intro c
    by_cases hd : all_done c = true
    · rw [runLoop_succ_done o fuel c hd]
      exact Nat.zero_le _
    · rw [Bool.not_eq_true] at hd
      by_cases hr : (get_ready_steps c).isEmpty = true
      · by_cases hf : has_failures c = true
        · rw [runLoop_succ_blocked_fail o fuel c hd hr hf]
          rw [show (c, [Event.query c (get_ready_steps c)]).2 =
            [Event.query c (get_ready_steps c)] from rfl,
            countQueries_query, countQueries_nil]
          exact Nat.succ_le_succ (Nat.zero_le _)
        · rw [Bool.not_eq_true] at hf
          rw [runLoop_succ_idle o fuel c hd hr hf]
          rw [show ((runLoop o fuel c).1,
              Event.query c (get_ready_steps c) :: Event.idle ::
                (runLoop o fuel c).2).2 =
            Event.query c (get_ready_steps c) :: Event.idle ::
              (runLoop o fuel c).2 from rfl,
            countQueries_query, countQueries_idle]
          exact Nat.succ_le_succ (ih c)
      · rw [Bool.not_eq_true] at hr
        rw [runLoop_succ_batch o fuel c hd hr]
        rw [show ((runLoop o fuel (applyResults
              (markAllRunning c (get_ready_steps c)) (get_ready_steps c) o)).1,
            Event.query c (get_ready_steps c) ::
              Event.dispatch (get_ready_steps c) ::
              (runLoop o fuel (applyResults
                (markAllRunning c (get_ready_steps c))
                (get_ready_steps c) o)).2).2 =
            Event.query c (get_ready_steps c) ::
              Event.dispatch (get_ready_steps c) ::
              (runLoop o fuel (applyResults
                (markAllRunning c (get_ready_steps c))
                (get_ready_steps c) o)).2 from rfl,
          countQueries_query, countQueries_dispatch]
        exact Nat.succ_le_succ (ih _)

theorem runLoop_blocked (o : String → StepOutcome) :
    ∀ (fuel : Nat) (c : Ctx), all_done c = false → get_ready_steps c = [] →
    has_failures c = false → runLoop o fuel c = (c, idleTrace c fuel) := by
  intro fuel
  induction fuel with
  | zero =>
    intro c _ _ _
    rfl
  | succ fuel ih =>
    intro c h1 h2 h3
    have hie : (get_ready_steps c).isEmpty = true := by
      rw [h2]
      rfl
    rw [runLoop_succ_idle o fuel c h1 hie h3, ih c h1 h2 h3, idleTrace, h2]

theorem countQueries_idleTrace (c : Ctx) :
    ∀ n : Nat, countQueries (idleTrace c n) = n := by
  intro n
  induction n with
  | zero => rfl
  | succ n ih =>
    rw [idleTrace, countQueries_query, countQueries_idle, ih]

theorem runLoop_query_noRunning (o : String → StepOutcome) :
    ∀ (fuel : Nat) (c0 : Ctx), nodupKeys c0 → noRunning c0 →
    ∀ (c : Ctx) (r : List String),
    Event.query c r ∈ (runLoop o fuel c0).2 → noRunning c := by
  intro fuel
  induction fuel with
  | zero =>
    intro c0 _ _ c r hmem
    rw [runLoop_zero] at hmem
    simp at hmem
  | succ fuel ih =>
    intro c0 hnd hnr c r hmem
    by_cases hd : all_done c0 = true
    · rw [runLoop_succ_done o fuel c0 hd] at hmem
      simp at hmem
    · rw [Bool.not_eq_true] at hd
      by_cases hready : (get_ready_steps c0).isEmpty = true
      · by_cases hf : has_failures c0 = true
        · rw [runLoop_succ_blocked_fail o fuel c0 hd hready hf] at hmem
          rcases List.mem_cons.mp hmem with he | hmem2
          · injection he with hcc hrr
            subst hcc
            exact hnr
          · simp at hmem2
        · rw [Bool.not_eq_true] at hf
          rw [runLoop_succ_idle o fuel c0 hd hready hf] at hmem
          rcases List.mem_cons.mp hmem with he | hmem2
          · injection he with hcc hrr
            subst hcc
            exact hnr
          · rcases List.mem_cons.mp hmem2 with he2 | hmem3
            · simp at he2
            · exact ih c0 hnd hnr c r hmem3
      · rw [Bool.not_eq_true] at hready
        rw [runLoop_succ_batch o fuel c0 hd hready] at hmem
        rcases List.mem_cons.mp hmem with he | hmem2
        · injection he with hcc hrr
          subst hcc
          exact hnr
        · rcases List.mem_cons.mp hmem2 with he2 | hmem3
          · simp at he2
          · exact ih _ (nodupKeys_afterBatch c0 _ o hnd)
              (noRunning_afterBatch c0 o hnd hnr) c r hmem3

/-- C1: for every graph state with distinct step ids, `get_ready_steps`
returns only steps whose status is pending and all of whose direct
non-ROOT predecessors have status completed; it never returns a step
with another status or with an incomplete non-ROOT predecessor. -/
theorem C1_ready_steps_sound (c : Ctx) (k : String) (hnd : nodupKeys c)
    (hk : k ∈ get_ready_steps c) :
    getStatus c k = some Status.pending ∧
    ∀ s t : String, (s, t) ∈ c.edges → t = k → ¬ s = "ROOT" →
      getStatus c s = some Status.completed := by
  rw [get_ready_steps] at hk
  rcases List.mem_map.mp hk with ⟨p, hpmem, hpk⟩
  rw [List.mem_filter] at hpmem
  obtain ⟨hpin, hprop⟩ := hpmem
  simp only [Bool.and_eq_true] at hprop
  obtain ⟨⟨hroot, hpend⟩, hall⟩ := hprop
  have hfind : findAssoc c.nodes k = some p.2 := by
    apply findAssoc_eq_of_mem c.nodes k p.2 hnd
    rw [← hpk]
    exact hpin
  constructor
  · show (findAssoc c.nodes k).map Node.status = some Status.pending
    rw [hfind]
    rw [beq_iff_eq] at hpend
    simp [hpend]
  · intro s t hst htk hsroot
    have he := List.all_eq_true.mp hall (s, t) hst
    simp only [Bool.or_eq_true, Bool.not_eq_eq_eq_not, Bool.not_true,
      beq_iff_eq, beq_eq_false_iff_ne] at he
    rcases he with (h | h) | h
    · exact absurd (htk.trans hpk.symm) h
    · exact absurd h hsroot
    · exact h

/-- Witness for C1 at the concrete graph `ctx2`, where T2 is ready
behind the completed non-ROOT predecessor T1. -/
theorem C1_ready_steps_sound_witness :
    (nodupKeys ctx2 ∧ "T2" ∈ get_ready_steps ctx2) ∧
    getStatus ctx2 "T2" = some Status.pending ∧
    getStatus ctx2 "T1" = some Status.completed :=
  ⟨⟨by unfold nodupKeys; decide, by decide⟩,
   (C1_ready_steps_sound ctx2 "T2" (by unfold nodupKeys; decide)
     (by decide)).1,
   (C1_ready_steps_sound ctx2 "T2" (by unfold nodupKeys; decide)
     (by decide)).2 "T1" "T2" (by decide) rfl (by decide)⟩

/-- C3: in one batch's result processing, an exception raised by one
step's invocation is recorded for that step alone as status failed with
the exception text as error, and every step of the batch ends with
exactly the node update determined by its own outcome, independent of
the crashing sibling. -/
theorem C3_exception_containment (c : Ctx) (batch : List String)
    (o : String → StepOutcome) (i : String) (msg : String)
    (hnd : batch.Nodup) (hi : i ∈ batch)
    (hp : (getNode c i).isSome = true) (ho : o i = StepOutcome.exn msg) :
    getStatus (applyResults c batch o) i = some Status.failed ∧
    getError (applyResults c batch o) i = some (some msg) ∧
    ∀ j, j ∈ batch →
      getNode (applyResults c batch o) j =
        getNode (applyOutcome c j (o j)) j := by
  rcases Option.isSome_iff_exists.mp hp with ⟨n, hn⟩
  refine ⟨?_, ?_, ?_⟩
  · rw [getStatus_applyResults_mem c batch o i hi hp, ho]
    rfl
  · show (getNode (applyResults c batch o) i).map Node.error = some (some msg)
    rw [getNode_applyResults_mem_nodup c batch o i hnd hi,
      getNode_applyOutcome_self, ho]
    rw [show getNode c i = some n from hn]
    rfl
  · intro j hj
    exact getNode_applyResults_mem_nodup c batch o j hnd hj

/-- Witness for C3 at the concrete batch over `ctx3`: T1's invocation
raises "crash", T2's own success is still applied. -/
theorem C3_exception_containment_witness :
    (["T1", "T2"].Nodup ∧ "T1" ∈ ["T1", "T2"] ∧
     (getNode ctx3 "T1").isSome = true ∧ o3 "T1" = StepOutcome.exn "crash") ∧
    getStatus (applyResults ctx3 ["T1", "T2"] o3) "T1" = some Status.failed ∧
    getError (applyResults ctx3 ["T1", "T2"] o3) "T1" = some (some "crash") ∧
    getNode (applyResults ctx3 ["T1", "T2"] o3) "T2" =
      getNode (applyOutcome ctx3 "T2" (o3 "T2")) "T2" :=
  ⟨⟨by decide, by decide, rfl, rfl⟩,
   (C3_exception_containment ctx3 ["T1", "T2"] o3 "T1" "crash"
     (by decide) (by decide) rfl rfl).1,
   (C3_exception_containment ctx3 ["T1", "T2"] o3 "T1" "crash"
     (by decide) (by decide) rfl rfl).2.1,
   (C3_exception_containment ctx3 ["T1", "T2"] o3 "T1" "crash"
     (by decide) (by decide) rfl rfl).2.2 "T2" (by decide)⟩

/-- C4: whenever a scheduler-loop iteration finds no ready steps and a
failure exists anywhere, the loop stops immediately: the run's remaining
trace is exactly that one readiness query, with no dispatch and no
further query, and the state is unchanged. -/
theorem C4_failfast_on_blocked_failure (o : String → StepOutcome)
    (fuel : Nat) (c : Ctx) (h1 : all_done c = false)
    (h2 : get_ready_steps c = []) (h3 : has_failures c = true) :
    runLoop o (fuel + 1) c = (c, [Event.query c []]) ∧
    execute_dag o c = (c, [Event.query c []]) := by
  have hie : (get_ready_steps c).isEmpty = true := by
    rw [h2]
    rfl
  constructor
  · rw [runLoop_succ_blocked_fail o fuel c h1 hie h3, h2]
  · show runLoop o (19 + 1) c = (c, [Event.query c []])
    rw [runLoop_succ_blocked_fail o 19 c h1 hie h3, h2]

/-- Witness for C4 at `ctx4`: T1 failed, T2 blocked behind it always,
the loop stops after one readiness query. -/
theorem C4_failfast_on_blocked_failure_witness :
    (all_done ctx4 = false ∧ get_ready_steps ctx4 = [] ∧
     has_failures ctx4 = true) ∧
    execute_dag o3 ctx4 = (ctx4, [Event.query ctx4 []]) :=
  ⟨⟨by decide, by decide, by decide⟩,
   (C4_failfast_on_blocked_failure o3 19 ctx4 (by decide) (by decide)
     (by decide)).2⟩

/-- C5: the scheduler loop performs at most its maximum iteration count
of 20 iterations (readiness queries, idle retries counting against the
same budget), and on a graph where no step ever becomes ready it spends
the whole budget, halts by returning (the model is a total function)
with the graph unchanged and `all_done` still false. -/
theorem C5_iteration_budget :
    (∀ (o : String → StepOutcome) (c : Ctx),
      countQueries (execute_dag o c).2 ≤ 20) ∧
    (∀ (o : String → StepOutcome) (c : Ctx), all_done c = false →
      get_ready_steps c = [] → has_failures c = false →
      execute_dag o c = (c, idleTrace c 20) ∧
      countQueries (execute_dag o c).2 = 20 ∧
      all_done (execute_dag o c).1 = false) := by
  constructor
  · intro o c
    exact countQueries_runLoop_le o 20 c
  · intro o c h1 h2 h3
    have hb : execute_dag o c = (c, idleTrace c 20) :=
      runLoop_blocked o 20 c h1 h2 h3
    refine ⟨hb, ?_, ?_⟩
    · rw [hb]
      exact countQueries_idleTrace c 20
    · rw [hb]
      exact h1

/-- Witness for C5 at `ctx5` (a planner-bug cycle): the run spends all
20 iterations and ends with `all_done` false. -/
theorem C5_iteration_budget_witness :
    (all_done ctx5 = false ∧ get_ready_steps ctx5 = [] ∧
     has_failures ctx5 = false) ∧
    countQueries (execute_dag o3 ctx5).2 = 20 ∧
    all_done (execute_dag o3 ctx5).1 = false :=
  ⟨⟨by decide, by decide, by decide⟩,
   (C5_iteration_budget.2 o3 ctx5 (by decide) (by decide) (by decide)).2⟩

/-- C10: starting from a graph with distinct step ids and no running
node, every readiness evaluation of the scheduler loop sees no node
with status running; moreover every step of a batch is marked running
before dispatch and ends the iteration with the terminal status of its
own outcome. -/
theorem C10_no_stale_running :
    (∀ (o : String → StepOutcome) (fuel : Nat) (c0 : Ctx),
      nodupKeys c0 → noRunning c0 →
      ∀ (c : Ctx) (r : List String),
      Event.query c r ∈ (runLoop o fuel c0).2 → noRunning c) ∧
    (∀ (c : Ctx) (b : List String) (j : String), j ∈ b →
      (getNode c j).isSome = true →
      getStatus (markAllRunning c b) j = some Status.running) ∧
    (∀ (o : String → StepOutcome) (c : Ctx) (b : List String) (j : String),
      j ∈ b → (getNode c j).isSome = true →
      getStatus (applyResults (markAllRunning c b) b o) j =
        some (terminalOf (o j))) :=
  ⟨runLoop_query_noRunning,
   fun c b j hj hp => getStatus_markAllRunning_mem c b j hj hp,
   fun o c b j hj hp => getStatus_applyResults_mem _ b o j hj
     ((isSome_getNode_markAllRunning c b j).trans hp)⟩

/-- Witness for C10 at `ctx1` and the batch containing T1. -/
theorem C10_no_stale_running_witness :
    (nodupKeys ctx1 ∧ noRunning ctx1 ∧ "T1" ∈ ["T1"] ∧
     (getNode ctx1 "T1").isSome = true) ∧
    getStatus (markAllRunning ctx1 ["T1"]) "T1" = some Status.running ∧
    getStatus (applyResults (markAllRunning ctx1 ["T1"]) ["T1"] o3) "T1" =
      some (terminalOf (o3 "T1")) :=
  ⟨⟨by unfold nodupKeys; decide, by unfold noRunning; decide,
     by decide, rfl⟩,
   C10_no_stale_running.2.1 ctx1 ["T1"] "T1" (by decide) rfl,
   C10_no_stale_running.2.2 o3 ctx1 ["T1"] "T1" (by decide) rfl⟩

/-- C2: a step whose first capability invocation succeeds with the
call_self flag set ends with exactly two entries in its iterations
list, and the step runner's returned result and the recorded
final_iteration_output equal the second turn's output when the second
invocation succeeds, else the first turn's output. -/
theorem C2_self_continuation (c : Ctx) (id : String)
    (run1 : Obj → AgentResult) (codeExec : Obj → Option Obj)
    (run2 : Obj → AgentResult) (n : Node) (output : Obj)
    (hn : getNode c id = some n)
    (h1 : run1 (build_agent_input n.agent id n c (get_inputs c n.reads)
      Val.null Val.null Val.null) = AgentResult.ok output)
    (hcs : truthyO (getField output "call_self") = true) :
    ∃ (r : AgentResult) (c2 : Ctx) (n2 : Node),
      execute_step c id run1 codeExec run2 = Except.ok (r, c2) ∧
      getNode c2 id = some n2 ∧
      n2.iterations.map List.length = some 2 ∧
      n2.call_self_used = true ∧
      (match run2 (execute_step_second_input c id n (get_inputs c n.reads)
          output codeExec) with
       | AgentResult.ok o2 =>
           r = AgentResult.ok o2 ∧ n2.final_iteration_output = some o2
       | AgentResult.err e =>
           r = AgentResult.ok output ∧
           n2.final_iteration_output = some output) := by
  have e1 : execute_step c id run1 codeExec run2 =
      Except.ok (execute_step_body c id n run1 codeExec run2) := by
    unfold execute_step
    rw [hn]
  have e2 : execute_step_body c id n run1 codeExec run2 =
      execute_step_callself c id n (get_inputs c n.reads) output
        codeExec run2 := by
    unfold execute_step_body
    rw [h1]
    show (if truthyO (getField output "call_self") = true then
        execute_step_callself c id n (get_inputs c n.reads) output
          codeExec run2
      else (AgentResult.ok output, c)) = _
    rw [if_pos hcs]
  cases hr2 : run2 (execute_step_second_input c id n (get_inputs c n.reads)
      output codeExec) with
  | ok o2 =>
    refine ⟨AgentResult.ok o2,
      updateNode c id (fun m =>
        { m with iterations := some [some (1, output), some (2, o2)],
                 call_self_used := true,
                 final_iteration_output := some o2 }),
      { n with iterations := some [some (1, output), some (2, o2)],
               call_self_used := true,
               final_iteration_output := some o2 },
      ?_, ?_, ?_, ?_, ?_⟩
    · rw [e1, e2]
      unfold execute_step_callself
      rw [hr2]
    · rw [getNode_updateNode_self, hn]
      rfl
    · rfl
    · rfl
    · exact ⟨rfl, rfl⟩
  | err e =>
    refine ⟨AgentResult.ok output,
      updateNode c id (fun m =>
        { m with iterations := some [some (1, output), none],
                 call_self_used := true,
                 final_iteration_output := some output }),
      { n with iterations := some [some (1, output), none],
               call_self_used := true,
               final_iteration_output := some output },
      ?_, ?_, ?_, ?_, ?_⟩
    · rw [e1, e2]
      unfold execute_step_callself
      rw [hr2]
    · rw [getNode_updateNode_self, hn]
      rfl
    · rfl
    · rfl
    · exact ⟨rfl, rfl⟩

/-- Witness for C2 at the concrete step T1 of `ctxA`: the first turn
returns `out1` (call_self set), the second turn succeeds with `out2`. -/
theorem C2_self_continuation_witness :
    (getNode ctxA "T1" = some nodeT1 ∧
     runA (build_agent_input nodeT1.agent "T1" nodeT1 ctxA
       (get_inputs ctxA nodeT1.reads) Val.null Val.null Val.null) =
       AgentResult.ok out1 ∧
     truthyO (getField out1 "call_self") = true) ∧
    (∃ (r : AgentResult) (c2 : Ctx) (n2 : Node),
      execute_step ctxA "T1" runA codeNone runB = Except.ok (r, c2) ∧
      getNode c2 "T1" = some n2 ∧
      n2.iterations.map List.length = some 2 ∧
      n2.call_self_used = true ∧
      (match runB (execute_step_second_input ctxA "T1" nodeT1
          (get_inputs ctxA nodeT1.reads) out1 codeNone) with
       | AgentResult.ok o2 =>
           r = AgentResult.ok o2 ∧ n2.final_iteration_output = some o2
       | AgentResult.err e =>
           r = AgentResult.ok out1 ∧
           n2.final_iteration_output = some out1)) :=
  ⟨⟨rfl, rfl, rfl⟩,
   C2_self_continuation ctxA "T1" runA codeNone runB nodeT1 out1
     rfl rfl rfl⟩

/-- C6 counterexample: at the concrete run `c6res` (second turn fails
with "boom"), the second entry of the step's iterations list is the
Python `None` placeholder, and the failed second attempt's error text is
recorded nowhere on the step — so the failed second attempt is not
itself retained, contradicting the claim as stated. -/
theorem C6_counterexample :
    Option.bind c6node Node.iterations = some [some (1, out1), none] ∧
    c6node.map Node.error = some none :=
  ⟨rfl, rfl⟩

/-- C6 amended: when the second turn of a self-continuation fails, the
step's iterations list has exactly two entries, the first holding turn
one's output, while the failed second attempt is recorded only as a null
placeholder (its output and error text are not retained); the step falls
back to turn one's result. -/
theorem C6_turn2_failure_placeholder (c : Ctx) (id : String)
    (run1 : Obj → AgentResult) (codeExec : Obj → Option Obj)
    (run2 : Obj → AgentResult) (n : Node) (output : Obj) (e : String)
    (hn : getNode c id = some n)
    (h1 : run1 (build_agent_input n.agent id n c (get_inputs c n.reads)
      Val.null Val.null Val.null) = AgentResult.ok output)
    (hcs : truthyO (getField output "call_self") = true)
    (h2 : run2 (execute_step_second_input c id n (get_inputs c n.reads)
      output codeExec) = AgentResult.err e) :
    execute_step c id run1 codeExec run2 =
      Except.ok (AgentResult.ok output, updateNode c id (fun m =>
        { m with iterations := some [some (1, output), none],
                 call_self_used := true,
                 final_iteration_output := some output })) ∧
    getNode (updateNode c id (fun m =>
        { m with iterations := some [some (1, output), none],
                 call_self_used := true,
                 final_iteration_output := some output })) id =
      some (withIterations n [some (1, output), none] output) := by
  constructor
  · have e1 : execute_step c id run1 codeExec run2 =
        Except.ok (execute_step_body c id n run1 codeExec run2) := by
      unfold execute_step
      rw [hn]
    have e2 : execute_step_body c id n run1 codeExec run2 =
        execute_step_callself c id n (get_inputs c n.reads) output
          codeExec run2 := by
      unfold execute_step_body
      rw [h1]
      show (if truthyO (getField output "call_self") = true then
          execute_step_callself c id n (get_inputs c n.reads) output
            codeExec run2
        else (AgentResult.ok output, c)) = _
      rw [if_pos hcs]
    rw [e1, e2]
    unfold execute_step_callself
    rw [h2]
  · rw [getNode_updateNode_self, hn]
    rfl

/-- Witness for C6 (amended) at the concrete step T1 of `ctxA` with a
failing second turn. -/
theorem C6_turn2_failure_placeholder_witness :
    (getNode ctxA "T1" = some nodeT1 ∧
     runA (build_agent_input nodeT1.agent "T1" nodeT1 ctxA
       (get_inputs ctxA nodeT1.reads) Val.null Val.null Val.null) =
       AgentResult.ok out1 ∧
     truthyO (getField out1 "call_self") = true ∧
     runFail (execute_step_second_input ctxA "T1" nodeT1
       (get_inputs ctxA nodeT1.reads) out1 codeNone) =
       AgentResult.err "boom") ∧
    execute_step ctxA "T1" runA codeNone runFail =
      Except.ok (AgentResult.ok out1, updateNode ctxA "T1" (fun m =>
        { m with iterations := some [some (1, out1), none],
                 call_self_used := true,
                 final_iteration_output := some out1 })) :=
  ⟨⟨rfl, rfl, rfl, rfl⟩,
   (C6_turn2_failure_placeholder ctxA "T1" runA codeNone runFail nodeT1
     out1 "boom" rfl rfl rfl rfl).1⟩

/-- C7 counterexample: a first output with call_self set but no
iteration_context triggers a second turn whose payload carries no
"iteration_context" key at all, contradicting the claim that the
second-turn payload includes iteration_context. -/
theorem C7_counterexample :
    truthyO (getField outNC "call_self") = true ∧
    containsKey (execute_step_second_input ctxA "T1" nodeT1 [] outNC
      codeNone) "iteration_context" = false :=
  ⟨rfl, rfl⟩

/-- C7 amended: the payload built by `build_agent_input` carries the
entire shared namespace, the original query and the session metadata
exactly when the agent is FormatterAgent; for every agent its keys are
exactly step_id, agent_prompt (the effective instruction), reads,
writes and inputs, plus previous_output when that argument is truthy
and iteration_context when that argument is truthy; on a second turn
previous_output is present whenever the first output is nonempty, and
iteration_context is present exactly when the first output carries a
truthy iteration_context. -/
theorem C7_payload_shape :
    (∀ (agent_type step_id : String) (n : Node) (c : Ctx) (inputs : Obj)
       (instruction previous_output iteration_context : Val),
      objKeys (build_agent_input agent_type step_id n c inputs instruction
          previous_output iteration_context) =
        ["step_id", "agent_prompt", "reads", "writes", "inputs"] ++
        (if agent_type == "FormatterAgent" then
          ["all_globals_schema", "original_query", "session_context"]
         else []) ++
        (if truthy previous_output then ["previous_output"] else []) ++
        (if truthy iteration_context then ["iteration_context"] else [])) ∧
    (∀ (agent_type step_id : String) (n : Node) (c : Ctx) (inputs : Obj)
       (instruction previous_output iteration_context : Val),
      containsKey (build_agent_input agent_type step_id n c inputs
          instruction previous_output iteration_context)
          "all_globals_schema" = (agent_type == "FormatterAgent") ∧
      containsKey (build_agent_input agent_type step_id n c inputs
          instruction previous_output iteration_context)
          "original_query" = (agent_type == "FormatterAgent") ∧
      containsKey (build_agent_input agent_type step_id n c inputs
          instruction previous_output iteration_context)
          "session_context" = (agent_type == "FormatterAgent")) ∧
    (∀ (c : Ctx) (step_id : String) (n : Node) (inputs output : Obj)
       (codeExec : Obj → Option Obj),
      containsKey (execute_step_second_input c step_id n inputs output
          codeExec) "previous_output" = truthy (Val.obj output) ∧
      containsKey (execute_step_second_input c step_id n inputs output
          codeExec) "iteration_context" =
        truthy (getFieldD output "iteration_context" (Val.obj []))) := by
  refine ⟨?_, ?_, ?_⟩
  · intro a sid n c inputs ins po ictx
    cases hF : (a == "FormatterAgent") <;>
      cases hP : truthy po <;>
        cases hI : truthy ictx <;>
          simp [build_agent_input, objKeys, hF, hP, hI]
  · intro a sid n c inputs ins po ictx
    cases hF : (a == "FormatterAgent") <;>
      cases hP : truthy po <;>
        cases hI : truthy ictx <;>
          simp [build_agent_input, containsKey, hF, hP, hI]
  · intro c sid n inputs output codeExec
    unfold execute_step_second_input
    cases hP : truthy (Val.obj output) <;>
      cases hI : truthy (getFieldD output "iteration_context"
        (Val.obj [])) <;>
        cases hF : (n.agent == "FormatterAgent") <;>
          simp [build_agent_input, containsKey, hF, hP, hI]

/-- C8 counterexample: replaying T1 through the debugger (first turn
`out1` with call_self, second turn succeeding with `out2`) leaves the
node pending with its output cleared and no iteration bookkeeping (the
un-awaited `mark_done` coroutine of line 287 never runs), while a
scheduler-driven execution of the same step with the same capability
results leaves the node completed with the second turn's output and the
full bookkeeping: the two final node states differ, so replay and
normal execution are not equivalent. -/
theorem C8_counterexample :
    c8_replayNode.map (fun m =>
      (m.status, m.output, m.call_self_used, m.final_iteration_output,
       m.iterations)) =
      some (Status.pending, none, false, none, none) ∧
    c8_normalNode.map (fun m =>
      (m.status, m.output, m.call_self_used, m.final_iteration_output,
       m.iterations)) =
      some (Status.completed, some out2, true, some out2,
        some [some (1, out1), some (2, out2)]) :=
  ⟨rfl, rfl⟩

/-- C8 amended: with a live backend, replaying a node whose first
invocation succeeds with call_self set resets the node's status and
output and returns the first turn's output, but applies none of the
step runner's protocol: the un-awaited `mark_done` coroutine never
executes, so the node stays pending with its output cleared; the second
turn runs with a payload that always carries previous_output and
iteration_context and never the FormatterAgent broad context, with no
code-execution phase, and its two-iteration trace is recorded only in
the debug file; the node's iterations, call_self_used and
final_iteration_output fields are untouched. -/
theorem C8_replay_leaves_node_reset (dbg : GraphDebugger) (c : Ctx)
    (n : Node) (node_id : String) (run1 run2 : Obj → AgentResult)
    (out : Obj) (hM : dbg.hasMCP = true) (hR : dbg.hasRunner = true)
    (hc : dbg.context = some c) (hn : getNode c node_id = some n)
    (h1 : run1 (build_agent_input n.agent node_id n c
      (get_inputs c n.reads) Val.null Val.null Val.null) =
      AgentResult.ok out)
    (hcs : truthyO (getField out "call_self") = true) :
    replay_node dbg node_id run1 run2 =
      Except.ok ⟨some (replay_reset c node_id), out, true,
        some (replay_iterations n node_id (get_inputs c n.reads) out
          run2)⟩ ∧
    getNode (replay_reset c node_id) node_id = some (resetNode n) := by
  constructor
  · have hn2 : findAssoc c.nodes node_id = some n := hn
    simp only [replay_node, hM, hc, hn2, h1, hR, Bool.not_true,
      Bool.not_false, Bool.false_eq_true, if_false]
    unfold replay_success
    rw [if_pos hcs]
  · have hstep1 : getNode (replay_reset c node_id) node_id =
        (getNode c node_id).map (fun m =>
          { m with status := Status.pending, output := none }) :=
      getNode_updateNode_self c node_id
        (fun m => { m with status := Status.pending, output := none })
    rw [hstep1, hn]
    rfl

/-- Witness for C8 (amended) at the debugger dbg8 replaying T1. -/
theorem C8_replay_leaves_node_reset_witness :
    (dbg8.hasMCP = true ∧ dbg8.hasRunner = true ∧
     dbg8.context = some ctxA ∧ getNode ctxA "T1" = some nodeT1 ∧
     runA (build_agent_input nodeT1.agent "T1" nodeT1 ctxA
       (get_inputs ctxA nodeT1.reads) Val.null Val.null Val.null) =
       AgentResult.ok out1 ∧
     truthyO (getField out1 "call_self") = true) ∧
    replay_node dbg8 "T1" runA runB =
      Except.ok ⟨some (replay_reset ctxA "T1"), out1, true,
        some (replay_iterations nodeT1 "T1" (get_inputs ctxA nodeT1.reads)
          out1 runB)⟩ :=
  ⟨⟨rfl, rfl, rfl, rfl, rfl, rfl⟩,
   (C8_replay_leaves_node_reset dbg8 ctxA nodeT1 "T1" runA runB out1
     rfl rfl rfl rfl rfl rfl).1⟩

/-- C9 counterexample: a debugger whose MCP modules imported but which
was constructed with multi_mcp absent (so no agent runner exists)
raises on replay instead of returning an empty result without error:
the branch dereferencing the missing agent runner is reached. -/
theorem C9_counterexample :
    replay_node dbg9 "T1" runA runB =
      Except.error
        "AttributeError: NoneType object has no attribute run_agent" :=
  rfl

/-- C9 amended: replay performs no capability invocation and returns an
empty result exactly in read-only mode, i.e. when the MCP modules
failed to import; a debugger with the modules imported but no backend
attached (no agent runner) instead reaches the dereference of the
missing agent runner in replay_node and raises. -/
theorem C9_replay_guard :
    (∀ (dbg : GraphDebugger) (node_id : String)
       (run1 run2 : Obj → AgentResult), dbg.hasMCP = false →
      replay_node dbg node_id run1 run2 =
        Except.ok ⟨dbg.context, [], false, none⟩) ∧
    (∀ (dbg : GraphDebugger) (c : Ctx) (n : Node) (node_id : String)
       (run1 run2 : Obj → AgentResult), dbg.hasMCP = true →
      dbg.hasRunner = false → dbg.context = some c →
      getNode c node_id = some n →
      replay_node dbg node_id run1 run2 =
        Except.error
          "AttributeError: NoneType object has no attribute run_agent") := by
  constructor
  · intro dbg node_id run1 run2 h
    unfold replay_node
    rw [h]
    exact rfl
  · intro dbg c n node_id run1 run2 hM hR hc hn
    have hn2 : findAssoc c.nodes node_id = some n := hn
    simp only [replay_node, hM, hc, hn2, hR, Bool.not_true,
      Bool.not_false, Bool.false_eq_true, if_false, if_true]

/-- Witness for C9 (amended): the read-only debugger dbg9ro returns an
empty result without invoking, and dbg9 (modules imported, no backend)
raises. -/
theorem C9_replay_guard_witness :
    (dbg9ro.hasMCP = false ∧
     replay_node dbg9ro "T1" runA runB =
       Except.ok ⟨dbg9ro.context, [], false, none⟩) ∧
    (dbg9.hasMCP = true ∧ dbg9.hasRunner = false ∧
     dbg9.context = some ctxA ∧ getNode ctxA "T1" = some nodeT1 ∧
     replay_node dbg9 "T1" runA runB =
       Except.error
         "AttributeError: NoneType object has no attribute run_agent") :=
  ⟨⟨rfl, C9_replay_guard.1 dbg9ro "T1" runA runB rfl⟩,
   ⟨rfl, rfl, rfl, rfl,
    C9_replay_guard.2 dbg9 ctxA nodeT1 "T1" runA runB rfl rfl rfl rfl⟩⟩

end S16
